import Mathlib

/-!
Verification model of the JWT authentication example
(`authentication-with-Jwt-spring-security-reactJs`).

The repository consists of a React frontend (an `AuthProvider` context that
logs in/registers against `POST /auth/login` / `POST /auth/register`, stores
the issued token in `localStorage`, and restores it on startup), a Spring
controller gating two demo endpoints by role, and documentation describing
the backend's `JwtTokenProvider` (HS512-signed JWTs, `jwtExpirationMs =
86400000`).

The backend token service itself ships only as documentation
(`BACKEND_INTEGRATION.md` delegates signing/parsing to the `jjwt` library,
which is not part of the repository), so the token issue/verify pipeline and
the credential verifier are modelled from the specification's §4.1/§4.2
algorithm, while every fact the repository does pin down (the 24h = 86400000ms
TTL, the `sub`/`iat`/`exp` payload claims, the endpoint role requirements, the
frontend's exact localStorage and fetch behavior) is taken from the source.

Bytes and byte strings are modelled as `Nat` / `List Nat`.
-/

namespace JwtSpec

/-! ## base64url alphabet (RFC 4648 §5, unpadded as used by JWS) -/

/-- Ascii code of the base64url character for a 6-bit value:
`A`-`Z`, `a`-`z`, `0`-`9`, `-`, `_`. -/
def b64Char (v : Nat) : Nat :=
  if v < 26 then v + 65
  else if v < 52 then v + 71
  else if v < 62 then v - 4
  else if v = 62 then 45
  else 95

/-- Inverse of `b64Char`: the 6-bit value of an ascii code, `none` when the
character is outside the base64url alphabet. -/
def b64Val (c : Nat) : Option Nat :=
  if 65 ≤ c ∧ c ≤ 90 then some (c - 65)
  else if 97 ≤ c ∧ c ≤ 122 then some (c - 71)
  else if 48 ≤ c ∧ c ≤ 57 then some (c + 4)
  else if c = 45 then some 62
  else if c = 95 then some 63
  else none

/-- Modelled from the spec: "Serializes header+payload as base64url" —
unpadded base64url encoding of a byte string, 3 bytes to 4 characters,
with a 2- resp. 3-character final group for 1 resp. 2 leftover bytes. -/
def base64urlEncode : List Nat → List Nat
  | [] => []
  | [b1] => [b64Char (b1 / 4), b64Char (b1 % 4 * 16)]
  | [b1, b2] => [b64Char (b1 / 4), b64Char (b1 % 4 * 16 + b2 / 16), b64Char (b2 % 16 * 4)]
  | b1 :: b2 :: b3 :: rest =>
      b64Char (b1 / 4) :: b64Char (b1 % 4 * 16 + b2 / 16) ::
        b64Char (b2 % 16 * 4 + b3 / 64) :: b64Char (b3 % 64) :: base64urlEncode rest

/-- Modelled from the spec: "any segment fails base64url decode" — strict
unpadded base64url decoding: rejects characters outside the alphabet, a
group length of 1 (mod 4), and nonzero trailing pad bits. -/
def base64urlDecode : List Nat → Option (List Nat)
  | [] => some []
  | [_] => none
  | [c1, c2] =>
      match b64Val c1, b64Val c2 with
      | some v1, some v2 =>
          if v2 % 16 = 0 then some [v1 * 4 + v2 / 16] else none
      | _, _ => none
  | [c1, c2, c3] =>
      match b64Val c1, b64Val c2, b64Val c3 with
      | some v1, some v2, some v3 =>
          if v3 % 4 = 0 then some [v1 * 4 + v2 / 16, v2 % 16 * 16 + v3 / 4] else none
      | _, _, _ => none
  | c1 :: c2 :: c3 :: c4 :: rest =>
      match b64Val c1, b64Val c2, b64Val c3, b64Val c4, base64urlDecode rest with
      | some v1, some v2, some v3, some v4, some bs =>
          some ((v1 * 4 + v2 / 16) :: (v2 % 16 * 16 + v3 / 4) :: (v3 % 4 * 64 + v4) :: bs)
      | _, _, _, _, _ => none

theorem b64Val_b64Char : ∀ v, v < 64 → b64Val (b64Char v) = some v := by
  decide

theorem b64Val_lt {c v : Nat} (h : b64Val c = some v) : v < 64 := by
  unfold b64Val at h
  split_ifs at h <;> simp_all <;> omega

theorem b64Char_b64Val {c v : Nat} (h : b64Val c = some v) : b64Char v = c := by
  unfold b64Val at h
  unfold b64Char
  split_ifs at h <;> simp_all <;> split_ifs <;> omega

theorem b64Char_ne_dot (v : Nat) : b64Char v ≠ 46 := by
  unfold b64Char
  split_ifs <;> omega

theorem base64urlDecode_encode :
    ∀ bs : List Nat, (∀ b ∈ bs, b < 256) →
      base64urlDecode (base64urlEncode bs) = some bs
  | [], _ => rfl
  | [b1], h => by
      have hb1 : b1 < 256 := h b1 (by simp)
      have h1 := b64Val_b64Char (b1 / 4) (by omega)
      have h2 := b64Val_b64Char (b1 % 4 * 16) (by omega)
      simp [base64urlEncode, base64urlDecode, h1, h2, Nat.mul_mod_left]
      omega
  | [b1, b2], h => by
      have hb1 : b1 < 256 := h b1 (by simp)
      have hb2 : b2 < 256 := h b2 (by simp)
      have h1 := b64Val_b64Char (b1 / 4) (by omega)
      have h2 := b64Val_b64Char (b1 % 4 * 16 + b2 / 16) (by omega)
      have h3 := b64Val_b64Char (b2 % 16 * 4) (by omega)
      simp [base64urlEncode, base64urlDecode, h1, h2, h3, Nat.mul_mod_left]
      constructor <;> omega
  | b1 :: b2 :: b3 :: rest, h => by
      have hb1 : b1 < 256 := h b1 (by simp)
      have hb2 : b2 < 256 := h b2 (by simp)
      have hb3 : b3 < 256 := h b3 (by simp)
      have ih := base64urlDecode_encode rest (fun b hb => h b (by simp [hb]))
      have h1 := b64Val_b64Char (b1 / 4) (by omega)
      have h2 := b64Val_b64Char (b1 % 4 * 16 + b2 / 16) (by omega)
      have h3 := b64Val_b64Char (b2 % 16 * 4 + b3 / 64) (by omega)
      have h4 := b64Val_b64Char (b3 % 64) (by omega)
      simp [base64urlEncode, base64urlDecode, h1, h2, h3, h4, ih]
      refine ⟨by omega, by omega, by omega⟩

theorem base64urlEncode_decode :
    ∀ s bs : List Nat, base64urlDecode s = some bs → base64urlEncode bs = s
  | [], bs, h => by
      simp [base64urlDecode] at h
      subst h
      rfl
  | [_], bs, h => by
      simp [base64urlDecode] at h
  | [c1, c2], bs, h => by
      unfold base64urlDecode at h
      cases h1 : b64Val c1 with
      | none => simp [h1] at h
      | some v1 =>
        cases h2 : b64Val c2 with
        | none => simp [h1, h2] at h
        | some v2 =>
          rw [h1, h2] at h
          have l1 := b64Val_lt h1
          have l2 := b64Val_lt h2
          replace h : (if v2 % 16 = 0 then some [v1 * 4 + v2 / 16] else none) = some bs := h
          split_ifs at h with hv
          · obtain rfl : [v1 * 4 + v2 / 16] = bs := by simpa using h
            have e1 : (v1 * 4 + v2 / 16) / 4 = v1 := by omega
            have e2 : (v1 * 4 + v2 / 16) % 4 * 16 = v2 := by omega
            simp [base64urlEncode, e1, e2, b64Char_b64Val h1, b64Char_b64Val h2]
  | [c1, c2, c3], bs, h => by
      unfold base64urlDecode at h
      cases h1 : b64Val c1 with
      | none => simp [h1] at h
      | some v1 =>
        cases h2 : b64Val c2 with
        | none => simp [h1, h2] at h
        | some v2 =>
          cases h3 : b64Val c3 with
          | none => simp [h1, h2, h3] at h
          | some v3 =>
            rw [h1, h2, h3] at h
            have l1 := b64Val_lt h1
            have l2 := b64Val_lt h2
            have l3 := b64Val_lt h3
            replace h :
                (if v3 % 4 = 0 then some [v1 * 4 + v2 / 16, v2 % 16 * 16 + v3 / 4]
                  else none) = some bs := h
            split_ifs at h with hv
            · obtain rfl : [v1 * 4 + v2 / 16, v2 % 16 * 16 + v3 / 4] = bs := by simpa using h
              have e1 : (v1 * 4 + v2 / 16) / 4 = v1 := by omega
              have e2 : (v1 * 4 + v2 / 16) % 4 * 16 + (v2 % 16 * 16 + v3 / 4) / 16 = v2 := by
                omega
              have e3 : (v2 % 16 * 16 + v3 / 4) % 16 * 4 = v3 := by omega
              simp [base64urlEncode, e1, e2, e3, b64Char_b64Val h1, b64Char_b64Val h2,
                b64Char_b64Val h3]
  | c1 :: c2 :: c3 :: c4 :: rest, bs, h => by
      unfold base64urlDecode at h
      cases h1 : b64Val c1 with
      | none => simp [h1] at h
      | some v1 =>
        cases h2 : b64Val c2 with
        | none => simp [h1, h2] at h
        | some v2 =>
          cases h3 : b64Val c3 with
          | none => simp [h1, h2, h3] at h
          | some v3 =>
            cases h4 : b64Val c4 with
            | none => simp [h1, h2, h3, h4] at h
            | some v4 =>
              cases h5 : base64urlDecode rest with
              | none => simp [h1, h2, h3, h4, h5] at h
              | some bs2 =>
                rw [h1, h2, h3, h4, h5] at h
                have l1 := b64Val_lt h1
                have l2 := b64Val_lt h2
                have l3 := b64Val_lt h3
                have l4 := b64Val_lt h4
                have ih := base64urlEncode_decode rest bs2 h5
                obtain rfl :
                    (v1 * 4 + v2 / 16) :: (v2 % 16 * 16 + v3 / 4) ::
                      (v3 % 4 * 64 + v4) :: bs2 = bs := by simpa using h
                have e1 : (v1 * 4 + v2 / 16) / 4 = v1 := by omega
                have e2 : (v1 * 4 + v2 / 16) % 4 * 16 + (v2 % 16 * 16 + v3 / 4) / 16 = v2 := by
                  omega
                have e3 : (v2 % 16 * 16 + v3 / 4) % 16 * 4 + (v3 % 4 * 64 + v4) / 64 = v3 := by
                  omega
                have e4 : (v3 % 4 * 64 + v4) % 64 = v4 := by omega
                simp [base64urlEncode, e1, e2, e3, e4, b64Char_b64Val h1, b64Char_b64Val h2,
                  b64Char_b64Val h3, b64Char_b64Val h4, ih]

theorem mem_base64urlEncode_ne_dot :
    ∀ bs : List Nat, ∀ c ∈ base64urlEncode bs, c ≠ 46
  | [], c, hc => by simp [base64urlEncode] at hc
  | [b1], c, hc => by
      simp [base64urlEncode] at hc
      rcases hc with rfl | rfl <;> exact b64Char_ne_dot _
  | [b1, b2], c, hc => by
      simp [base64urlEncode] at hc
      rcases hc with rfl | rfl | rfl <;> exact b64Char_ne_dot _
  | b1 :: b2 :: b3 :: rest, c, hc => by
      simp [base64urlEncode] at hc
      rcases hc with rfl | rfl | rfl | rfl | hmem
      · exact b64Char_ne_dot _
      · exact b64Char_ne_dot _
      · exact b64Char_ne_dot _
      · exact b64Char_ne_dot _
      · exact mem_base64urlEncode_ne_dot rest c hmem

/-! ## Dot-separated segments

Modelled from the spec: a token is "an opaque string composed of three
base64url segments — header, payload, signature — conventionally
dot-separated"; verification must "split on segment boundaries".
`46` is the ascii code of `.`. -/

/-- Split a byte string at every `.` (ascii 46). -/
def splitDot : List Nat → List (List Nat)
  | [] => [[]]
  | c :: rest =>
      if c = 46 then [] :: splitDot rest
      else
        match splitDot rest with
        | s :: ss => (c :: s) :: ss
        | [] => [[c]]

/-- Number of `.` bytes in a byte string. -/
def countDots : List Nat → Nat
  | [] => 0
  | c :: rest => (if c = 46 then 1 else 0) + countDots rest

theorem splitDot_ne_nil : ∀ l : List Nat, splitDot l ≠ []
  | [] => by simp [splitDot]
  | c :: rest => by
      unfold splitDot
      split_ifs
      · simp
      · cases h : splitDot rest <;> simp

theorem splitDot_length : ∀ l : List Nat, (splitDot l).length = countDots l + 1
  | [] => rfl
  | c :: rest => by
      unfold splitDot countDots
      split_ifs with hc
      · simp [splitDot_length rest]
        omega
      · cases h : splitDot rest with
        | nil => exact absurd h (splitDot_ne_nil rest)
        | cons s ss =>
          have := splitDot_length rest
          rw [h] at this
          simpa using this

theorem splitDot_no_dot : ∀ l : List Nat, 46 ∉ l → splitDot l = [l]
  | [], _ => rfl
  | c :: rest, h => by
      have hc : c ≠ 46 := by
        intro hc
        exact h (by simp [hc])
      have hrest : (46 : Nat) ∉ rest := fun hm => h (by simp [hm])
      unfold splitDot
      rw [if_neg hc, splitDot_no_dot rest hrest]

theorem splitDot_append (a r : List Nat) (ha : 46 ∉ a) :
    splitDot (a ++ 46 :: r) = a :: splitDot r := by
  induction a with
  | nil => simp [splitDot]
  | cons c rest ih =>
    have hc : c ≠ 46 := by
      intro hc
      exact ha (by simp [hc])
    have hrest : (46 : Nat) ∉ rest := fun hm => ha (by simp [hm])
    have ihr := ih hrest
    simp only [List.cons_append, splitDot, if_neg hc, List.append_eq, ihr]

theorem countDots_append (a b : List Nat) :
    countDots (a ++ b) = countDots a + countDots b := by
  induction a with
  | nil => simp [countDots]
  | cons c rest ih => simp [countDots, ih]; omega

theorem countDots_pos_of_mem {l : List Nat} (h : 46 ∈ l) : 1 ≤ countDots l := by
  induction l with
  | nil => simp at h
  | cons c rest ih =>
    rcases List.mem_cons.mp h with rfl | hm
    · simp [countDots]
    · have := ih hm
      simp [countDots]
      omega

theorem countDots_eq_zero {l : List Nat} (h : ∀ c ∈ l, c ≠ 46) : countDots l = 0 := by
  induction l with
  | nil => rfl
  | cons c rest ih =>
    have hc : c ≠ 46 := h c (by simp)
    simp [countDots, hc]
    exact ih fun d hd => h d (by simp [hd])

/-! ## Payload claims and their serialization

Modelled from the spec: the payload "carries the Principal's claims plus
standard claims (subject, issued-at, expiry)" as JSON, and verification must
"parse payload JSON; fail with `Malformed` if required claims (`sub`, `exp`)
are absent or of the wrong type". JSON is abstracted to a flat object: a
list of (key, value) entries with string or number values, serialized to
bytes by a length-delimited encoding. -/

/-- A JSON-level claim value: a string or a (timestamp) number. -/
inductive JVal where
  | jstr : List Nat → JVal
  | jnum : Nat → JVal
deriving DecidableEq

/-- Base-128 varint encoding of a natural number (low 7 bits per byte, high
bit set on every byte but the last); the fuel argument makes the recursion
structural. -/
def encNatAux : Nat → Nat → List Nat
  | 0, _ => []
  | fuel + 1, n => if n < 128 then [n] else (n % 128 + 128) :: encNatAux fuel (n / 128)

/-- Self-delimiting byte encoding of a natural number. -/
def encNat (n : Nat) : List Nat :=
  encNatAux (n + 1) n

/-- Decode a varint from the front of a byte string, returning the value and
the remaining bytes. -/
def decNat : List Nat → Option (Nat × List Nat)
  | [] => none
  | b :: rest =>
      if b < 128 then some (b, rest)
      else
        match decNat rest with
        | some (m, r) => some (b - 128 + 128 * m, r)
        | none => none

theorem decNat_encNatAux :
    ∀ (fuel n : Nat) (rest : List Nat), n < 128 ^ fuel → fuel ≠ 0 →
      decNat (encNatAux fuel n ++ rest) = some (n, rest)
  | 0, _, _, _, hf => absurd rfl hf
  | fuel + 1, n, rest, h, _ => by
      unfold encNatAux
      split_ifs with hn
      · simp [decNat, hn]
      · have hfuel : fuel ≠ 0 := by
          rintro rfl
          simp at h
          omega
        have hdiv : n / 128 < 128 ^ fuel := by
          rw [Nat.div_lt_iff_lt_mul (by omega)]
          calc n < 128 ^ (fuel + 1) := h
          _ = 128 ^ fuel * 128 := by ring
        have ih := decNat_encNatAux fuel (n / 128) rest hdiv hfuel
        simp only [List.cons_append, decNat, ih]
        rw [if_neg (by omega)]
        rw [show (encNatAux fuel (n / 128)).append rest = encNatAux fuel (n / 128) ++ rest
            from rfl, ih]
        simp only [Option.some.injEq, Prod.mk.injEq]
        exact ⟨by omega, trivial⟩

theorem decNat_encNat (n : Nat) (rest : List Nat) :
    decNat (encNat n ++ rest) = some (n, rest) := by
  have hpow : n < 128 ^ (n + 1) := by
    calc n < 2 ^ n := Nat.lt_two_pow n
    _ ≤ 128 ^ n := Nat.pow_le_pow_left (by omega) n
    _ ≤ 128 ^ (n + 1) := Nat.pow_le_pow_right (by omega) (by omega)
  exact decNat_encNatAux (n + 1) n rest hpow (by omega)

theorem encNatAux_lt :
    ∀ (fuel n : Nat), ∀ b ∈ encNatAux fuel n, b < 256
  | 0, n => by simp [encNatAux]
  | fuel + 1, n => by
      unfold encNatAux
      split_ifs with hn
      · simp
        omega
      · intro b hb
        rcases List.mem_cons.mp hb with rfl | hm
        · omega
        · exact encNatAux_lt fuel (n / 128) b hm

theorem encNat_lt (n : Nat) : ∀ b ∈ encNat n, b < 256 :=
  encNatAux_lt (n + 1) n


/-- Serialize one (key, value) claim entry: varint key length, key bytes,
a one-byte type tag (0 = string, 1 = number), then the value. -/
def serEntry : List Nat × JVal → List Nat
  | (k, JVal.jstr s) => encNat k.length ++ k ++ [0] ++ encNat s.length ++ s
  | (k, JVal.jnum m) => encNat k.length ++ k ++ [1] ++ encNat m

/-- Serialize a claim object: varint entry count, then the entries. -/
def serPayload (entries : List (List Nat × JVal)) : List Nat :=
  encNat entries.length ++ entries.flatMap serEntry

/-- Parse one claim entry from the front of a byte string. -/
def parseEntry (bs : List Nat) : Option ((List Nat × JVal) × List Nat) :=
  match decNat bs with
  | none => none
  | some (kl, r1) =>
      if kl ≤ r1.length then
        match r1.drop kl with
        | [] => none
        | tag :: r2 =>
            if tag = 0 then
              match decNat r2 with
              | none => none
              | some (sl, r3) =>
                  if sl ≤ r3.length then
                    some ((r1.take kl, JVal.jstr (r3.take sl)), r3.drop sl)
                  else none
            else if tag = 1 then
              match decNat r2 with
              | none => none
              | some (m, r3) => some ((r1.take kl, JVal.jnum m), r3)
            else none
      else none

/-- Parse exactly `n` claim entries, requiring the input to be exhausted. -/
def parseEntriesN : Nat → List Nat → Option (List (List Nat × JVal))
  | 0, bs => if bs = [] then some [] else none
  | n + 1, bs =>
      match parseEntry bs with
      | none => none
      | some (e, r) =>
          match parseEntriesN n r with
          | none => none
          | some es => some (e :: es)

/-- Parse a serialized claim object. -/
def parsePayload (bs : List Nat) : Option (List (List Nat × JVal)) :=
  match decNat bs with
  | none => none
  | some (n, r) => parseEntriesN n r

theorem parseEntry_serEntry (e : List Nat × JVal) (rest : List Nat) :
    parseEntry (serEntry e ++ rest) = some (e, rest) := by
  obtain ⟨k, v⟩ := e
  cases v with
  | jstr s =>
    have harg : serEntry (k, JVal.jstr s) ++ rest
        = encNat k.length ++ (k ++ (0 :: (encNat s.length ++ (s ++ rest)))) := by
      simp [serEntry]
    rw [harg]
    unfold parseEntry
    rw [decNat_encNat]
    simp [List.take_left, List.drop_left, decNat_encNat]
  | jnum m =>
    have harg : serEntry (k, JVal.jnum m) ++ rest
        = encNat k.length ++ (k ++ (1 :: (encNat m ++ rest))) := by
      simp [serEntry]
    rw [harg]
    unfold parseEntry
    rw [decNat_encNat]
    simp [List.take_left, List.drop_left, decNat_encNat]

theorem parseEntriesN_flatMap :
    ∀ es : List (List Nat × JVal),
      parseEntriesN es.length (es.flatMap serEntry) = some es
  | [] => by simp [parseEntriesN]
  | e :: es => by
      have ih := parseEntriesN_flatMap es
      simp only [List.length_cons, List.flatMap_cons, parseEntriesN,
        parseEntry_serEntry, ih]

theorem parsePayload_serPayload (entries : List (List Nat × JVal)) :
    parsePayload (serPayload entries) = some entries := by
  unfold parsePayload serPayload
  rw [decNat_encNat]
  exact parseEntriesN_flatMap entries

theorem serEntry_lt {k : List Nat} {v : JVal} (hk : ∀ b ∈ k, b < 256)
    (hv : ∀ s, v = JVal.jstr s → ∀ b ∈ s, b < 256) :
    ∀ b ∈ serEntry (k, v), b < 256 := by
  cases v with
  | jstr s =>
    intro b hb
    simp [serEntry] at hb
    rcases hb with h | h | h | h | h <;>
      first
        | exact encNat_lt _ b h
        | exact hk b h
        | omega
        | exact hv s rfl b h
  | jnum m =>
    intro b hb
    simp [serEntry] at hb
    rcases hb with h | h | h | h <;>
      first
        | exact encNat_lt _ b h
        | exact hk b h
        | omega

theorem serPayload_lt {entries : List (List Nat × JVal)}
    (h : ∀ e ∈ entries, ∀ b ∈ serEntry e, b < 256) :
    ∀ b ∈ serPayload entries, b < 256 := by
  intro b hb
  simp [serPayload] at hb
  rcases hb with h1 | h1
  · exact encNat_lt _ b h1
  · obtain ⟨k, v, he, hbe⟩ := h1
    exact h (k, v) he b hbe

/-! ## The token service

Modelled from the spec §4.2 and the source's `JwtTokenProvider`
(`BACKEND_INTEGRATION.md`): `generateToken` builds the payload
`sub`/`iat`/`exp` with `jwtExpirationMs = 86400000` (24 hours, also
`jwt.expiration=86400000` in the README) and signs
`header || "." || payload` with the process secret; `verify` splits,
decodes, recomputes the signature, parses the claims, and checks expiry,
in the spec's §4.2 order. -/

/-- Modelled from the spec: "a keyed cryptographic MAC ... over
`header || "." || payload` using a process-wide secret key", abstracted to a
concrete executable 4-byte keyed digest. -/
def mac (key msg : List Nat) : List Nat :=
  [0, 1, 2, 3].map fun i =>
    (key ++ msg).foldl (fun a b => (a * 131 + b + i + 1) % 256) ((i + 17) % 256)

theorem foldlMac_lt (i : Nat) :
    ∀ (l : List Nat) (a : Nat), a < 256 →
      l.foldl (fun a b => (a * 131 + b + i + 1) % 256) a < 256
  | [], _, ha => ha
  | b :: l, a, _ => foldlMac_lt i l _ (Nat.mod_lt _ (by omega))

theorem mac_lt (key msg : List Nat) : ∀ b ∈ mac key msg, b < 256 := by
  intro b hb
  obtain ⟨i, hi, rfl⟩ := List.mem_map.mp hb
  exact foldlMac_lt i (key ++ msg) _ (Nat.mod_lt _ (by omega))

/-- The serialized token header (opaque to verification beyond base64url
decodability); ascii `HS512`, the algorithm the source's
`JwtTokenProvider.generateToken` signs with. -/
def headerBytes : List Nat := [72, 83, 53, 49, 50]

/-- Ascii bytes of the claim key `sub`. -/
def subKey : List Nat := [115, 117, 98]

/-- Ascii bytes of the claim key `iat`. -/
def iatKey : List Nat := [105, 97, 116]

/-- Ascii bytes of the claim key `exp`. -/
def expKey : List Nat := [101, 120, 112]

/-- Token time-to-live in milliseconds: `jwtExpirationMs = 86400000; // 24
hours` in the source's `JwtTokenProvider` (`jwt.expiration=86400000` in the
README's configuration). -/
def jwtExpirationMs : Nat := 86400000

/-- The authenticated identity carried by a token (spec §3): subject,
issued-at and expiry timestamps (milliseconds). -/
structure Principal where
  subject : List Nat
  issuedAt : Nat
  expiresAt : Nat
deriving DecidableEq

/-- Payload claims of a token issued for `sub` at time `now`: exactly
`sub`, `iat = now`, `exp = now + jwtExpirationMs`, as built by the source's
`generateToken` (`setSubject`, `setIssuedAt`, `setExpiration`). -/
def payloadEntries (sub : List Nat) (now : Nat) : List (List Nat × JVal) :=
  [(subKey, JVal.jstr sub), (iatKey, JVal.jnum now),
    (expKey, JVal.jnum (now + jwtExpirationMs))]

/-- The base64url header segment. -/
def headerSeg : List Nat := base64urlEncode headerBytes

/-- The base64url payload segment of a token issued for `sub` at `now`. -/
def payloadSeg (sub : List Nat) (now : Nat) : List Nat :=
  base64urlEncode (serPayload (payloadEntries sub now))

/-- The signing input `header || "." || payload` (over the encoded
segments, spec §3). -/
def signingInput (h p : List Nat) : List Nat := h ++ (46 :: p)

/-- Signature bytes of a token issued for `sub` at `now`. -/
def sigBytes (secret sub : List Nat) (now : Nat) : List Nat :=
  mac secret (signingInput headerSeg (payloadSeg sub now))

/-- The base64url signature segment of an issued token. -/
def sigSeg (secret sub : List Nat) (now : Nat) : List Nat :=
  base64urlEncode (sigBytes secret sub now)

/-- Issue a token for subject `sub` at time `now` (the source's
`JwtTokenProvider.generateToken(email)`): header, payload and signature
segments joined by `.`. -/
def generateToken (secret sub : List Nat) (now : Nat) : List Nat :=
  headerSeg ++ (46 :: (payloadSeg sub now ++ (46 :: sigSeg secret sub now)))

/-- First value stored under `key` in a claim object. -/
def getClaim : List (List Nat × JVal) → List Nat → Option JVal
  | [], _ => none
  | (k, v) :: rest, key => if k = key then some v else getClaim rest key

/-- The `iat` claim when present as a number, `0` otherwise (`iat` is not a
required claim in spec §4.2 step 3). -/
def iatClaim (entries : List (List Nat × JVal)) : Nat :=
  match getClaim entries iatKey with
  | some (JVal.jnum i) => i
  | _ => 0

/-- Spec §4.2 step 3: parse the payload and require claims `sub` (string)
and `exp` (number); `none` models the `Malformed` failure. -/
def extractClaims (pBytes : List Nat) : Option Principal :=
  match parsePayload pBytes with
  | none => none
  | some entries =>
      match getClaim entries subKey, getClaim entries expKey with
      | some (JVal.jstr s), some (JVal.jnum e) => some ⟨s, iatClaim entries, e⟩
      | _, _ => none

/-- Verification failures, spec §7: `Malformed` (structurally invalid),
`BadSignature` (signature mismatch), `Expired` (past `exp`). -/
inductive VerifyFailure where
  | Malformed
  | BadSignature
  | Expired
deriving DecidableEq

/-- Spec §4.2 steps 1–3: split into exactly three segments, base64url-decode
each (`Malformed` otherwise), recompute the signature over the received
`header || "." || payload` and compare (`BadSignature` on mismatch), then
parse the required claims (`Malformed` if absent or mistyped). -/
def verifyCore (secret token : List Nat) : Except VerifyFailure Principal :=
  match splitDot token with
  | [h, p, s] =>
      match base64urlDecode h, base64urlDecode p, base64urlDecode s with
      | some _, some pBytes, some sigReceived =>
          if mac secret (signingInput h p) = sigReceived then
            match extractClaims pBytes with
            | some P => Except.ok P
            | none => Except.error VerifyFailure.Malformed
          else Except.error VerifyFailure.BadSignature
      | _, _, _ => Except.error VerifyFailure.Malformed
  | _ => Except.error VerifyFailure.Malformed

/-- Spec §4.2: full verification — steps 1–3 (`verifyCore`) then step 4,
"fail with `Expired` if `now >= exp`", else return the embedded Principal. -/
def verify (secret token : List Nat) (now : Nat) : Except VerifyFailure Principal :=
  match verifyCore secret token with
  | Except.ok P =>
      if P.expiresAt ≤ now then Except.error VerifyFailure.Expired else Except.ok P
  | Except.error e => Except.error e

theorem payloadBytes_lt (sub : List Nat) (now : Nat) (hsub : ∀ b ∈ sub, b < 256) :
    ∀ b ∈ serPayload (payloadEntries sub now), b < 256 := by
  refine serPayload_lt ?_
  intro e he b hbe
  simp [payloadEntries] at he
  rcases he with rfl | rfl | rfl <;>
    refine serEntry_lt (by decide) ?_ b hbe
  · intro s hs
    injection hs with hs
    subst hs
    exact hsub
  · intro s hs
    cases hs
  · intro s hs
    cases hs

theorem headerSeg_no_dot : (46 : Nat) ∉ headerSeg :=
  fun hm => mem_base64urlEncode_ne_dot headerBytes 46 hm rfl

theorem payloadSeg_no_dot (sub : List Nat) (now : Nat) :
    (46 : Nat) ∉ payloadSeg sub now :=
  fun hm => mem_base64urlEncode_ne_dot _ 46 hm rfl

theorem sigSeg_no_dot (secret sub : List Nat) (now : Nat) :
    (46 : Nat) ∉ sigSeg secret sub now :=
  fun hm => mem_base64urlEncode_ne_dot _ 46 hm rfl

theorem splitDot_generateToken (secret sub : List Nat) (now : Nat) :
    splitDot (generateToken secret sub now)
      = [headerSeg, payloadSeg sub now, sigSeg secret sub now] := by
  unfold generateToken
  rw [splitDot_append _ _ headerSeg_no_dot,
    splitDot_append _ _ (payloadSeg_no_dot sub now),
    splitDot_no_dot _ (sigSeg_no_dot secret sub now)]

theorem getClaim_payloadEntries_sub (sub : List Nat) (now : Nat) :
    getClaim (payloadEntries sub now) subKey = some (JVal.jstr sub) := by
  simp [payloadEntries, getClaim]

theorem getClaim_payloadEntries_iat (sub : List Nat) (now : Nat) :
    getClaim (payloadEntries sub now) iatKey = some (JVal.jnum now) := by
  have h1 : subKey ≠ iatKey := by decide
  simp [payloadEntries, getClaim, h1]

theorem getClaim_payloadEntries_exp (sub : List Nat) (now : Nat) :
    getClaim (payloadEntries sub now) expKey
      = some (JVal.jnum (now + jwtExpirationMs)) := by
  have h1 : subKey ≠ expKey := by decide
  have h2 : iatKey ≠ expKey := by decide
  simp [payloadEntries, getClaim, h1, h2]

theorem extractClaims_payload (sub : List Nat) (now : Nat) :
    extractClaims (serPayload (payloadEntries sub now))
      = some ⟨sub, now, now + jwtExpirationMs⟩ := by
  unfold extractClaims
  rw [parsePayload_serPayload]
  simp [getClaim_payloadEntries_sub, getClaim_payloadEntries_exp, iatClaim,
    getClaim_payloadEntries_iat]

theorem verifyCore_generateToken (secret sub : List Nat) (now : Nat)
    (hsub : ∀ b ∈ sub, b < 256) :
    verifyCore secret (generateToken secret sub now)
      = Except.ok ⟨sub, now, now + jwtExpirationMs⟩ := by
  have hH : base64urlDecode headerSeg = some headerBytes :=
    base64urlDecode_encode headerBytes (by decide)
  have hP : base64urlDecode (payloadSeg sub now)
      = some (serPayload (payloadEntries sub now)) :=
    base64urlDecode_encode _ (payloadBytes_lt sub now hsub)
  have hS : base64urlDecode (sigSeg secret sub now) = some (sigBytes secret sub now) :=
    base64urlDecode_encode _ (mac_lt _ _)
  unfold verifyCore
  rw [splitDot_generateToken]
  simp only [hH, hP, hS]
  rw [if_pos (show mac secret (signingInput headerSeg (payloadSeg sub now))
      = sigBytes secret sub now from rfl)]
  rw [extractClaims_payload]

theorem verify_of_core_ok {secret token : List Nat} {now : Nat} {P : Principal}
    (h : verifyCore secret token = Except.ok P) (hlt : now < P.expiresAt) :
    verify secret token now = Except.ok P := by
  unfold verify
  rw [h]
  simp only []
  rw [if_neg (by omega)]

theorem verify_of_core_expired {secret token : List Nat} {now : Nat} {P : Principal}
    (h : verifyCore secret token = Except.ok P) (hexp : P.expiresAt ≤ now) :
    verify secret token now = Except.error VerifyFailure.Expired := by
  unfold verify
  rw [h]
  simp only []
  rw [if_pos hexp]

theorem verify_of_core_error {secret token : List Nat} {now : Nat} {e : VerifyFailure}
    (h : verifyCore secret token = Except.error e) :
    verify secret token now = Except.error e := by
  unfold verify
  rw [h]

theorem verifyCore_of_segments_ne_three {secret token : List Nat}
    (h : (splitDot token).length ≠ 3) :
    verifyCore secret token = Except.error VerifyFailure.Malformed := by
  rcases hsp : splitDot token with _ | ⟨a, _ | ⟨b, _ | ⟨c, _ | ⟨d, l⟩⟩⟩⟩
  · simp [verifyCore, hsp]
  · simp [verifyCore, hsp]
  · simp [verifyCore, hsp]
  · rw [hsp] at h
    simp at h
  · simp [verifyCore, hsp]

theorem verifyCore_of_decode_fail {secret token hseg pseg sseg : List Nat}
    (hsp : splitDot token = [hseg, pseg, sseg])
    (hd : base64urlDecode hseg = none ∨ base64urlDecode pseg = none ∨
      base64urlDecode sseg = none) :
    verifyCore secret token = Except.error VerifyFailure.Malformed := by
  unfold verifyCore
  rw [hsp]
  rcases hd with hd | hd | hd <;>
    cases h1 : base64urlDecode hseg <;>
      cases h2 : base64urlDecode pseg <;>
        cases h3 : base64urlDecode sseg <;>
          simp_all

theorem verifyCore_of_sig_mismatch {secret token hseg pseg sseg hb pb sb : List Nat}
    (hsp : splitDot token = [hseg, pseg, sseg])
    (hH : base64urlDecode hseg = some hb) (hP : base64urlDecode pseg = some pb)
    (hS : base64urlDecode sseg = some sb)
    (hne : mac secret (signingInput hseg pseg) ≠ sb) :
    verifyCore secret token = Except.error VerifyFailure.BadSignature := by
  unfold verifyCore
  rw [hsp]
  simp only [hH, hP, hS]
  rw [if_neg hne]

theorem verifyCore_of_claims_fail {secret token hseg pseg sseg hb pb sb : List Nat}
    (hsp : splitDot token = [hseg, pseg, sseg])
    (hH : base64urlDecode hseg = some hb) (hP : base64urlDecode pseg = some pb)
    (hS : base64urlDecode sseg = some sb)
    (hsig : mac secret (signingInput hseg pseg) = sb)
    (hcl : extractClaims pb = none) :
    verifyCore secret token = Except.error VerifyFailure.Malformed := by
  unfold verifyCore
  rw [hsp]
  simp only [hH, hP, hS]
  rw [if_pos hsig, hcl]

/-! ## Bit flips -/

/-- Flip bit `k` of the byte at index `j`. -/
def flipBit (xs : List Nat) (j k : Nat) : List Nat :=
  xs.set j (xs.getD j 0 ^^^ (1 <<< k))

theorem xor_shift_ne (x k : Nat) : x ^^^ (1 <<< k) ≠ x := by
  intro h
  have hm : (1 : Nat) <<< k ≠ 0 := by
    rw [Nat.shiftLeft_eq, one_mul]
    exact (Nat.pos_pow_of_pos k (by omega)).ne'
  have hxm : x ^^^ (x ^^^ (1 <<< k)) = 1 <<< k := by
    rw [← Nat.xor_assoc, Nat.xor_self, Nat.zero_xor]
  rw [h, Nat.xor_self] at hxm
  exact hm hxm.symm

theorem flipBit_ne {xs : List Nat} (j k : Nat) (hj : j < xs.length) :
    flipBit xs j k ≠ xs := by
  intro h
  have h1 : (flipBit xs j k)[j]? = xs[j]? := by rw [h]
  have h2 : (flipBit xs j k)[j]? = some (xs.getD j 0 ^^^ (1 <<< k)) := by
    simp [flipBit, List.getElem?_set_self', List.getElem?_eq_getElem, hj]
  have h3 : xs[j]? = some (xs.getD j 0) := by
    rw [List.getElem?_eq_getElem hj, List.getD_eq_getElem xs 0 hj]
  rw [h2, h3] at h1
  exact xor_shift_ne _ k (Option.some.inj h1)

theorem length_flipBit (xs : List Nat) (j k : Nat) :
    (flipBit xs j k).length = xs.length := by
  simp [flipBit]

theorem flipBit_lt {xs : List Nat} (hxs : ∀ b ∈ xs, b < 256) (j : Nat) {k : Nat}
    (hk : k < 8) : ∀ b ∈ flipBit xs j k, b < 256 := by
  intro b hb
  rcases List.mem_or_eq_of_mem_set hb with hmem | rfl
  · exact hxs b hmem
  · have hx : xs.getD j 0 < 256 := by
      rcases Nat.lt_or_ge j xs.length with hj | hj
      · rw [List.getD_eq_getElem xs 0 hj]
        exact hxs _ (List.getElem_mem hj)
      · rw [List.getD_eq_default _ _ hj]
        omega
    have h1 : xs.getD j 0 < 2 ^ 8 := hx
    have h2 : (1 : Nat) <<< k < 2 ^ 8 := by
      rw [Nat.shiftLeft_eq, one_mul]
      exact Nat.pow_lt_pow_right (by omega) hk
    exact Nat.xor_lt_two_pow h1 h2

/-- An issued token with bit `k` of byte `j` of its (base64url-encoded)
signature segment flipped. -/
def tamperSigText (secret sub : List Nat) (now j k : Nat) : List Nat :=
  headerSeg ++ (46 :: (payloadSeg sub now ++ (46 :: flipBit (sigSeg secret sub now) j k)))

/-- An issued token whose decoded signature bytes had bit `k` of byte `j`
flipped before re-encoding. -/
def tamperSigBytes (secret sub : List Nat) (now j k : Nat) : List Nat :=
  headerSeg ++
    (46 :: (payloadSeg sub now ++
      (46 :: base64urlEncode (flipBit (sigBytes secret sub now) j k))))

/-- A three-segment token with arbitrary header and payload bytes and a
correctly recomputed signature. -/
def signedToken (secret hb pb : List Nat) : List Nat :=
  base64urlEncode hb ++
    (46 :: (base64urlEncode pb ++
      (46 :: base64urlEncode
        (mac secret (signingInput (base64urlEncode hb) (base64urlEncode pb))))))

theorem splitDot_signedToken (secret hb pb : List Nat) :
    splitDot (signedToken secret hb pb)
      = [base64urlEncode hb, base64urlEncode pb,
          base64urlEncode
            (mac secret (signingInput (base64urlEncode hb) (base64urlEncode pb)))] := by
  unfold signedToken
  rw [splitDot_append _ _ (fun hm => mem_base64urlEncode_ne_dot hb 46 hm rfl),
    splitDot_append _ _ (fun hm => mem_base64urlEncode_ne_dot pb 46 hm rfl),
    splitDot_no_dot _ (fun hm => mem_base64urlEncode_ne_dot _ 46 hm rfl)]

theorem verifyCore_signedToken (secret hb pb : List Nat)
    (hhb : ∀ b ∈ hb, b < 256) (hpb : ∀ b ∈ pb, b < 256) :
    verifyCore secret (signedToken secret hb pb)
      = match extractClaims pb with
        | some P => Except.ok P
        | none => Except.error VerifyFailure.Malformed := by
  have hH : base64urlDecode (base64urlEncode hb) = some hb :=
    base64urlDecode_encode hb hhb
  have hP : base64urlDecode (base64urlEncode pb) = some pb :=
    base64urlDecode_encode pb hpb
  have hS : base64urlDecode
      (base64urlEncode (mac secret (signingInput (base64urlEncode hb) (base64urlEncode pb))))
      = some (mac secret (signingInput (base64urlEncode hb) (base64urlEncode pb))) :=
    base64urlDecode_encode _ (mac_lt _ _)
  unfold verifyCore
  rw [splitDot_signedToken]
  simp only [hH, hP, hS]
  rw [if_true]

theorem verify_tamperSigText_badsig (secret sub : List Nat) (now j k t : Nat)
    (hsub : ∀ b ∈ sub, b < 256) (hj : j < (sigSeg secret sub now).length)
    (h46 : (46 : Nat) ∉ flipBit (sigSeg secret sub now) j k)
    (hd : (base64urlDecode (flipBit (sigSeg secret sub now) j k)).isSome = true) :
    verify secret (tamperSigText secret sub now j k) t
      = Except.error VerifyFailure.BadSignature := by
  have hsp : splitDot (tamperSigText secret sub now j k)
      = [headerSeg, payloadSeg sub now, flipBit (sigSeg secret sub now) j k] := by
    unfold tamperSigText
    rw [splitDot_append _ _ headerSeg_no_dot,
      splitDot_append _ _ (payloadSeg_no_dot sub now),
      splitDot_no_dot _ h46]
  obtain ⟨sb, hs2⟩ := Option.isSome_iff_exists.mp hd
  refine verify_of_core_error (verifyCore_of_sig_mismatch hsp
    (base64urlDecode_encode headerBytes (by decide))
    (base64urlDecode_encode _ (payloadBytes_lt sub now hsub)) hs2 ?_)
  intro hsig
  have henc : base64urlEncode sb = flipBit (sigSeg secret sub now) j k :=
    base64urlEncode_decode _ sb hs2
  rw [← hsig] at henc
  exact flipBit_ne j k hj henc.symm

theorem verify_tamperSigText_malformed (secret sub : List Nat) (now j k t : Nat)
    (hcase : (46 : Nat) ∈ flipBit (sigSeg secret sub now) j k ∨
      base64urlDecode (flipBit (sigSeg secret sub now) j k) = none) :
    verify secret (tamperSigText secret sub now j k) t
      = Except.error VerifyFailure.Malformed := by
  by_cases h46 : (46 : Nat) ∈ flipBit (sigSeg secret sub now) j k
  · refine verify_of_core_error (verifyCore_of_segments_ne_three ?_)
    unfold tamperSigText
    rw [splitDot_append _ _ headerSeg_no_dot,
      splitDot_append _ _ (payloadSeg_no_dot sub now)]
    have hcd := countDots_pos_of_mem h46
    simp [splitDot_length]
    omega
  · have hdec : base64urlDecode (flipBit (sigSeg secret sub now) j k) = none :=
      hcase.resolve_left h46
    have hsp : splitDot (tamperSigText secret sub now j k)
        = [headerSeg, payloadSeg sub now, flipBit (sigSeg secret sub now) j k] := by
      unfold tamperSigText
      rw [splitDot_append _ _ headerSeg_no_dot,
        splitDot_append _ _ (payloadSeg_no_dot sub now),
        splitDot_no_dot _ h46]
    exact verify_of_core_error (verifyCore_of_decode_fail hsp (Or.inr (Or.inr hdec)))

theorem verify_tamperSigBytes (secret sub : List Nat) (now j k t : Nat)
    (hsub : ∀ b ∈ sub, b < 256) (hj : j < (sigBytes secret sub now).length)
    (hk : k < 8) :
    verify secret (tamperSigBytes secret sub now j k) t
      = Except.error VerifyFailure.BadSignature := by
  have hsp : splitDot (tamperSigBytes secret sub now j k)
      = [headerSeg, payloadSeg sub now,
          base64urlEncode (flipBit (sigBytes secret sub now) j k)] := by
    unfold tamperSigBytes
    rw [splitDot_append _ _ headerSeg_no_dot,
      splitDot_append _ _ (payloadSeg_no_dot sub now),
      splitDot_no_dot _ (fun hm => mem_base64urlEncode_ne_dot _ 46 hm rfl)]
  refine verify_of_core_error (verifyCore_of_sig_mismatch hsp
    (base64urlDecode_encode headerBytes (by decide))
    (base64urlDecode_encode _ (payloadBytes_lt sub now hsub))
    (base64urlDecode_encode _ (flipBit_lt (mac_lt _ _) j hk)) ?_)
  intro hsig
  exact flipBit_ne j k hj (hsig.symm)

/-! ## Access decision (role check)

The endpoints and their required roles are the source's `DemoController`:
`GET /api/user/hello` is annotated `@PreAuthorize("hasAnyRole('USER',
'ADMIN')")`, `GET /api/admin/hello` is `@PreAuthorize("hasRole('ADMIN')")`,
and `GET /api/public/hello` has no requirement. The decision rule is
modelled from spec §4.3: deny `Forbidden` when the Principal's role set does
not intersect the requirement, `Unauthenticated` when no valid Principal
was established on a protected endpoint. -/

/-- The two roles of the demo application. -/
inductive Role where
  | USER
  | ADMIN
deriving DecidableEq

/-- The three endpoints of the source's `DemoController`. -/
inductive Endpoint where
  | userHello
  | adminHello
  | publicHello
deriving DecidableEq

/-- Required role set per endpoint, from the `@PreAuthorize` annotations. -/
def requiredRoles : Endpoint → List Role
  | Endpoint.userHello => [Role.USER, Role.ADMIN]
  | Endpoint.adminHello => [Role.ADMIN]
  | Endpoint.publicHello => []

/-- Outcome of the per-request access decision (spec §4.3). -/
inductive AccessResult where
  | Authorized
  | Forbidden
  | Unauthenticated
deriving DecidableEq

/-- Modelled from the spec §4.3: given the verified Principal's role set (or
`none` when verification failed / no token), allow when the role sets
intersect, else `Forbidden`; `Unauthenticated` without a Principal on a
protected endpoint. -/
def accessDecision (roles : Option (List Role)) (e : Endpoint) : AccessResult :=
  if (requiredRoles e).isEmpty then AccessResult.Authorized
  else
    match roles with
    | none => AccessResult.Unauthenticated
    | some rs =>
        if rs.any fun r => decide (r ∈ requiredRoles e) then AccessResult.Authorized
        else AccessResult.Forbidden

/-! ## Credential verifier

Modelled from the spec §4.1: look up the stored credential record for the
email in the external user store, compare the password against the stored
hash, and fail with the single error `InvalidCredentials` both when the
email is unknown and when the password does not match. -/

/-- Modelled from the spec: "compares `password` against the stored hash
... (e.g. bcrypt-style)" — the store holds `hashPw` images, abstracted as a
fixed-key `mac`. -/
def hashPw (password : List Nat) : List Nat :=
  mac [7, 13, 29] password

/-- Outcome of credential verification: a verified principal's subject, or
the single merged failure. -/
inductive CredResult where
  | ok : List Nat → CredResult
  | invalidCredentials : CredResult
deriving DecidableEq

/-- Modelled from the spec §4.1: `verify(email, password) -> Principal |
AuthFailure`, against a user store `email ↦ stored hash`. -/
def verifyCredentials (store : List Nat → Option (List Nat))
    (email password : List Nat) : CredResult :=
  match store email with
  | none => CredResult.invalidCredentials
  | some stored =>
      if stored = hashPw password then CredResult.ok email
      else CredResult.invalidCredentials

/-! ## Frontend client model (`AuthContext.tsx`)

A faithful state-transition embedding of the source's `AuthProvider`:
`login`/`register` POST the credentials, then on a non-ok response throw
`errorData.message || "<op> failed with status <status>"`, on a body with
neither `token` nor `access_token` (JS-truthy) throw
`"No token received from server"`, and only on success set the user and the
two localStorage keys; every thrown error lands in `catch` (sets the error
state) and `finally` (clears `isLoading`). The mount effect restores
`{email, token}` from `authToken`/`userEmail` when both are truthy. -/

/-- The frontend's authenticated user: `{ email, token }`. -/
structure User where
  email : String
  token : String
deriving DecidableEq

/-- The `AuthProvider` React state: `user`, `isLoading`, `error`. -/
structure AuthState where
  user : Option User
  isLoading : Bool
  error : Option String
deriving DecidableEq

/-- `localStorage.getItem`. -/
def getItem : List (String × String) → String → Option String
  | [], _ => none
  | (k, v) :: rest, key => if k = key then some v else getItem rest key

/-- `localStorage.setItem`. -/
def setItem : List (String × String) → String → String → List (String × String)
  | [], key, v => [(key, v)]
  | (k, w) :: rest, key, v =>
      if k = key then (k, v) :: rest else (k, w) :: setItem rest key v

/-- The observable outcome of the `fetch` + `response.json()` sequence:
a rejected promise (with the thrown `Error`'s message when it was an
`Error`), a non-ok response (with `errorData.message` when the error body
had one), or an ok response with the optional `token` and `access_token`
fields. -/
inductive FetchOutcome where
  | networkFailure : Option String → FetchOutcome
  | httpFailure : Nat → Option String → FetchOutcome
  | httpSuccess : Option String → Option String → FetchOutcome
deriving DecidableEq

/-- JS `a || fallback` on an optional string field (absent and `""` are
falsy). -/
def strOrElse (o : Option String) (fallback : String) : String :=
  match o with
  | some s => if s = "" then fallback else s
  | none => fallback

/-- The truthy value of an optional string field, if any. -/
def truthy (o : Option String) : Option String :=
  match o with
  | some s => if s = "" then none else some s
  | none => none

/-- The source's `const token = data.token || data.access_token`:
the `token` field when truthy, else the `access_token` field when truthy. -/
def extractToken (tokenField accessTokenField : Option String) : Option String :=
  match truthy tokenField with
  | some t => some t
  | none => truthy accessTokenField

/-- One `login`/`register` call of the source's `AuthProvider`, as a
function of the current React state, the current localStorage contents, the
submitted email, and the fetch outcome; returns the new state and storage.
`opFailedMsg` / `statusMsg` are `"<op> failed"` and
`"<op> failed with status "` of the duplicated source bodies. -/
def authCall (opFailedMsg statusMsg : String) (st : AuthState)
    (storage : List (String × String)) (email : String)
    (outcome : FetchOutcome) : AuthState × List (String × String) :=
  match outcome with
  | FetchOutcome.networkFailure m =>
      (⟨st.user, false, some (strOrElse m opFailedMsg)⟩, storage)
  | FetchOutcome.httpFailure status m =>
      (⟨st.user, false, some (strOrElse m (statusMsg ++ toString status))⟩, storage)
  | FetchOutcome.httpSuccess tokenField accessTokenField =>
      match extractToken tokenField accessTokenField with
      | none => (⟨st.user, false, some "No token received from server"⟩, storage)
      | some tok =>
          (⟨some ⟨email, tok⟩, false, none⟩,
            setItem (setItem storage "authToken" tok) "userEmail" email)

/-- The source's `AuthProvider.login`. -/
def login (st : AuthState) (storage : List (String × String)) (email : String)
    (outcome : FetchOutcome) : AuthState × List (String × String) :=
  authCall "Login failed" "Login failed with status " st storage email outcome

/-- The source's `AuthProvider.register`. -/
def registerUser (st : AuthState) (storage : List (String × String)) (email : String)
    (outcome : FetchOutcome) : AuthState × List (String × String) :=
  authCall "Registration failed" "Registration failed with status " st storage email outcome

/-- The source's mount effect: restore `{email, token}` from the
`authToken`/`userEmail` keys when both are truthy. -/
def restoreUser (storage : List (String × String)) : Option User :=
  match truthy (getItem storage "authToken"), truthy (getItem storage "userEmail") with
  | some t, some e => some ⟨e, t⟩
  | _, _ => none

theorem getItem_setItem_self :
    ∀ (storage : List (String × String)) (key v : String),
      getItem (setItem storage key v) key = some v
  | [], key, v => by simp [setItem, getItem]
  | (k, w) :: rest, key, v => by
      by_cases hk : k = key
      · simp [setItem, getItem, hk]
      · simp [setItem, getItem, hk, getItem_setItem_self rest key v]

theorem getItem_setItem_other :
    ∀ (storage : List (String × String)) (key key2 v : String), key ≠ key2 →
      getItem (setItem storage key v) key2 = getItem storage key2
  | [], key, key2, v, hne => by simp [setItem, getItem, hne]
  | (k, w) :: rest, key, key2, v, hne => by
      by_cases hk : k = key
      · subst hk
        simp [setItem, getItem, hne]
      · simp [setItem, getItem, hk, getItem_setItem_other rest key key2 v hne]

/-! ## Claim theorems -/

instance : DecidableEq (Except VerifyFailure Principal) :=
  fun a b =>
    match a, b with
    | Except.ok x, Except.ok y =>
        if h : x = y then isTrue (by rw [h]) else isFalse (by simp [h])
    | Except.error x, Except.error y =>
        if h : x = y then isTrue (by rw [h]) else isFalse (by simp [h])
    | Except.ok _, Except.error _ => isFalse (by simp)
    | Except.error _, Except.ok _ => isFalse (by simp)

/-- C1: for every valid principal `P` (one whose timestamps are those of
issuance at `t`, with byte-valued subject) and time `t`, verifying a token
immediately after issuing it returns the same principal,
`verify(issue(P, t), t) = P`, the subject being recovered from the token's
`sub` claim. -/
theorem jwt_roundtrip (secret : List Nat) (P : Principal) (t : Nat)
    (hsub : ∀ b ∈ P.subject, b < 256) (hiat : P.issuedAt = t)
    (hexp : P.expiresAt = t + jwtExpirationMs) :
    verify secret (generateToken secret P.subject t) t = Except.ok P := by
  have hPeq : P = ⟨P.subject, t, t + jwtExpirationMs⟩ := by
    rw [← hexp, ← hiat]
  rw [hPeq]
  exact verify_of_core_ok (verifyCore_generateToken secret P.subject t hsub)
    (by show t < t + 86400000; omega)

set_option maxRecDepth 40000 in
/-- Witness for C1 at a concrete secret, subject and time. -/
theorem jwt_roundtrip_witness :
    verify [1, 2, 3] (generateToken [1, 2, 3] [97] 0) 0
      = Except.ok ⟨[97], 0, 86400000⟩ :=
  jwt_roundtrip [1, 2, 3] ⟨[97], 0, 86400000⟩ 0 (by decide) rfl rfl

/-- C2 (amended): expiry is reported only for tokens that pass the
structure, signature and claims checks: whenever `verifyCore` succeeds and
`now >= exp`, `verify` fails with `Expired` — in particular every issued
token fails with `Expired` at every `now >= issue_time + TTL`, including
`now = exp` exactly. A token that carries an `exp` claim but a bad
signature fails with `BadSignature` instead (see the counterexample). -/
theorem jwt_expired (secret tok : List Nat) (now : Nat) :
    (∀ P, verifyCore secret tok = Except.ok P → P.expiresAt ≤ now →
      verify secret tok now = Except.error VerifyFailure.Expired) ∧
    (∀ sub t, (∀ b ∈ sub, b < 256) → tok = generateToken secret sub t →
      t + jwtExpirationMs ≤ now →
      verify secret tok now = Except.error VerifyFailure.Expired) := by
  constructor
  · intro P hP hle
    exact verify_of_core_expired hP hle
  · rintro sub t hsub rfl hle
    exact verify_of_core_expired (verifyCore_generateToken secret sub t hsub) hle

set_option maxRecDepth 40000 in
/-- Witness for C2's amended theorem: an issued token verified exactly at
its expiry instant (`now = exp = issue_time + TTL`) fails with `Expired`. -/
theorem jwt_expired_witness :
    verify [1, 2, 3] (generateToken [1, 2, 3] [97] 0) 86400000
      = Except.error VerifyFailure.Expired :=
  (jwt_expired [1, 2, 3] (generateToken [1, 2, 3] [97] 0) 86400000).2 [97] 0
    (by decide) rfl (by decide)

set_option maxRecDepth 400000 in
/-- Counterexample to C2 as stated: this token carries the expiry claim
`exp = 86400000` (its payload is that of a token issued at 0) and is
verified at `now = exp`, yet `verify` fails with `BadSignature`, not
`Expired`, because its signature segment was tampered with and the
signature check precedes the expiry check. -/
theorem jwt_expired_counterexample :
    extractClaims (serPayload (payloadEntries [97] 0))
        = some ⟨[97], 0, 86400000⟩ ∧
    verify [1, 2, 3] (tamperSigText [1, 2, 3] [97] 0 0 0) 86400000
        = Except.error VerifyFailure.BadSignature ∧
    Except.error VerifyFailure.BadSignature
        ≠ (Except.error VerifyFailure.Expired : Except VerifyFailure Principal) := by
  refine ⟨by decide, by decide, by decide⟩

/-- C3 (amended): tampering with an issued token's signature never lets
`verify` succeed. Flipping a single bit of the decoded signature bytes
(re-encoded) always yields `BadSignature`; flipping a single bit of the
signature segment's text yields `BadSignature` whenever the flipped segment
still base64url-decodes with the dot structure intact, and `Malformed`
otherwise (see the counterexample) — in both cases verification fails. -/
theorem jwt_sig_tamper (secret sub : List Nat) (now j k t : Nat)
    (hsub : ∀ b ∈ sub, b < 256) (hk : k < 8) :
    (j < (sigSeg secret sub now).length →
      (((46 : Nat) ∉ flipBit (sigSeg secret sub now) j k ∧
          (base64urlDecode (flipBit (sigSeg secret sub now) j k)).isSome = true →
        verify secret (tamperSigText secret sub now j k) t
          = Except.error VerifyFailure.BadSignature) ∧
      ((46 : Nat) ∈ flipBit (sigSeg secret sub now) j k ∨
          base64urlDecode (flipBit (sigSeg secret sub now) j k) = none →
        verify secret (tamperSigText secret sub now j k) t
          = Except.error VerifyFailure.Malformed) ∧
      ∀ P, verify secret (tamperSigText secret sub now j k) t ≠ Except.ok P)) ∧
    (j < (sigBytes secret sub now).length →
      verify secret (tamperSigBytes secret sub now j k) t
        = Except.error VerifyFailure.BadSignature) := by
  constructor
  · intro hj
    refine ⟨fun hcond =>
        verify_tamperSigText_badsig secret sub now j k t hsub hj hcond.1 hcond.2,
      fun hcase => verify_tamperSigText_malformed secret sub now j k t hcase, ?_⟩
    intro P hP
    by_cases h46 : (46 : Nat) ∈ flipBit (sigSeg secret sub now) j k
    · have h := verify_tamperSigText_malformed secret sub now j k t (Or.inl h46)
      rw [hP] at h
      exact Except.noConfusion h
    · cases hd : base64urlDecode (flipBit (sigSeg secret sub now) j k) with
      | none =>
        have h := verify_tamperSigText_malformed secret sub now j k t (Or.inr hd)
        rw [hP] at h
        exact Except.noConfusion h
      | some sb =>
        have h := verify_tamperSigText_badsig secret sub now j k t hsub hj h46
          (by rw [hd]; rfl)
        rw [hP] at h
        exact Except.noConfusion h
  · intro hj
    exact verify_tamperSigBytes secret sub now j k t hsub hj hk

set_option maxRecDepth 400000 in
/-- Witness for C3's amended theorem, both halves at a concrete token:
flipping bit 0 of character 0 of the signature segment (`k` → `j`, still in
the alphabet, dots intact) fails with `BadSignature`, and flipping bit 0 of
decoded signature byte 0 also fails with `BadSignature`. -/
theorem jwt_sig_tamper_witness :
    verify [1, 2, 3] (tamperSigText [1, 2, 3] [97] 0 0 0) 0
        = Except.error VerifyFailure.BadSignature ∧
    verify [1, 2, 3] (tamperSigBytes [1, 2, 3] [97] 0 0 0) 0
        = Except.error VerifyFailure.BadSignature :=
  ⟨(((jwt_sig_tamper [1, 2, 3] [97] 0 0 0 0 (by decide) (by decide)).1
      (by decide)).1 ⟨by decide, by decide⟩),
    (jwt_sig_tamper [1, 2, 3] [97] 0 0 0 0 (by decide) (by decide)).2 (by decide)⟩

set_option maxRecDepth 400000 in
/-- Counterexample to C3 as stated: flipping bit 4 of character 0 of this
concrete token's signature segment (turning `k`, ascii 107, into `{`, ascii
123, which is outside the base64url alphabet) makes `verify` fail with
`Malformed`, not `BadSignature`. -/
theorem jwt_sig_tamper_counterexample :
    0 < (sigSeg [1, 2, 3] [97] 0).length ∧ (4 : Nat) < 8 ∧
    verify [1, 2, 3] (tamperSigText [1, 2, 3] [97] 0 0 4) 0
      = Except.error VerifyFailure.Malformed ∧
    Except.error VerifyFailure.Malformed
      ≠ (Except.error VerifyFailure.BadSignature : Except VerifyFailure Principal) := by
  refine ⟨by decide, by decide, by decide, by decide⟩

/-- C4 (amended): `verify` fails with the distinct error `Malformed` when
the input does not split into exactly three dot-separated segments, or some
segment fails base64url decoding — both checked before the signature — and
also when the payload of a correctly signed token lacks the required
`sub`/`exp` claims; that claims check, however, runs after the signature
check, so an input with both a bad signature and missing claims fails with
`BadSignature` (see the counterexample). -/
theorem jwt_malformed (secret tok : List Nat) (now : Nat) :
    ((splitDot tok).length ≠ 3 →
      verify secret tok now = Except.error VerifyFailure.Malformed) ∧
    (∀ hseg pseg sseg, splitDot tok = [hseg, pseg, sseg] →
      (base64urlDecode hseg = none ∨ base64urlDecode pseg = none ∨
        base64urlDecode sseg = none) →
      verify secret tok now = Except.error VerifyFailure.Malformed) ∧
    (∀ hb pb, (∀ b ∈ hb, b < 256) → (∀ b ∈ pb, b < 256) →
      extractClaims pb = none → tok = signedToken secret hb pb →
      verify secret tok now = Except.error VerifyFailure.Malformed) ∧
    (VerifyFailure.Malformed ≠ VerifyFailure.BadSignature ∧
      VerifyFailure.Malformed ≠ VerifyFailure.Expired) := by
  refine ⟨?_, ?_, ?_, by decide⟩
  · intro h
    exact verify_of_core_error (verifyCore_of_segments_ne_three h)
  · intro hseg pseg sseg hsp hd
    exact verify_of_core_error (verifyCore_of_decode_fail hsp hd)
  · rintro hb pb hhb hpb hcl rfl
    refine verify_of_core_error ?_
    rw [verifyCore_signedToken secret hb pb hhb hpb, hcl]

/-- Witness for C4's amended theorem: the empty string is not three
segments, so it is rejected as `Malformed`. -/
theorem jwt_malformed_witness :
    verify [1, 2, 3] [] 0 = Except.error VerifyFailure.Malformed :=
  (jwt_malformed [1, 2, 3] [] 0).1 (by decide)

set_option maxRecDepth 400000 in
/-- Counterexample to C4 as stated: this token has three base64url-decodable
segments, a payload (the empty byte string) lacking the required claims, and
a wrong signature; the claims `Malformed` check is NOT performed before the
signature check, so `verify` returns `BadSignature`, not `Malformed`. -/
theorem jwt_malformed_counterexample :
    extractClaims [] = none ∧
    (splitDot (base64urlEncode headerBytes ++
      (46 :: (base64urlEncode [] ++ (46 :: base64urlEncode [0]))))).length = 3 ∧
    verify [1, 2, 3]
        (base64urlEncode headerBytes ++
          (46 :: (base64urlEncode [] ++ (46 :: base64urlEncode [0])))) 0
      = Except.error VerifyFailure.BadSignature ∧
    Except.error VerifyFailure.BadSignature
      ≠ (Except.error VerifyFailure.Malformed : Except VerifyFailure Principal) := by
  refine ⟨by decide, by decide, by decide, by decide⟩

/-- C5: a request with a verified Principal is denied `Forbidden` exactly
when its role set does not intersect the endpoint's (nonempty) required
roles: role `USER` is denied on `/api/admin/hello` while role `ADMIN` is
allowed on both `/api/user/hello` and `/api/admin/hello`; a request with no
valid Principal on a protected endpoint is denied `Unauthenticated`. -/
theorem role_access :
    (∀ roles e, accessDecision (some roles) e = AccessResult.Forbidden ↔
      requiredRoles e ≠ [] ∧ ∀ r ∈ roles, r ∉ requiredRoles e) ∧
    accessDecision (some [Role.USER]) Endpoint.adminHello = AccessResult.Forbidden ∧
    accessDecision (some [Role.ADMIN]) Endpoint.adminHello = AccessResult.Authorized ∧
    accessDecision (some [Role.ADMIN]) Endpoint.userHello = AccessResult.Authorized ∧
    accessDecision (some [Role.USER]) Endpoint.userHello = AccessResult.Authorized ∧
    (∀ e, requiredRoles e ≠ [] → accessDecision none e = AccessResult.Unauthenticated) := by
  refine ⟨?_, by decide, by decide, by decide, by decide, ?_⟩
  · intro roles e
    simp only [accessDecision]
    split_ifs with h1 h2
    · simp only [List.isEmpty_iff] at h1
      simp [h1]
    · simp only [List.any_eq_true, decide_eq_true_eq] at h2
      obtain ⟨r, hr, hmem⟩ := h2
      constructor
      · intro h
        exact absurd h (by simp)
      · rintro ⟨_, hall⟩
        exact absurd hmem (hall r hr)
    · simp only [List.any_eq_true, decide_eq_true_eq] at h2
      constructor
      · intro _
        refine ⟨fun hnil => h1 (by simp [hnil]), ?_⟩
        intro r hr hmem
        exact h2 ⟨r, hr, hmem⟩
      · intro _
        rfl
  · intro e he
    cases e <;> revert he <;> decide

/-- Witness for C5 at the concrete controller endpoints. -/
theorem role_access_witness :
    accessDecision (some [Role.USER]) Endpoint.adminHello = AccessResult.Forbidden ∧
    accessDecision none Endpoint.adminHello = AccessResult.Unauthenticated :=
  ⟨role_access.2.1, role_access.2.2.2.2.2 Endpoint.adminHello (by decide)⟩

/-- C6: credential verification with an unknown email and credential
verification with a known email but non-matching password both fail with the
same single `invalidCredentials` error, and the two observable results are
equal (caller-indistinguishable). -/
theorem credential_indistinguishable
    (store : List Nat → Option (List Nat)) (e1 p1 e2 p2 : List Nat)
    (h1 : store e1 = none)
    (h2 : ∀ stored, store e2 = some stored → stored ≠ hashPw p2) :
    verifyCredentials store e1 p1 = CredResult.invalidCredentials ∧
    verifyCredentials store e2 p2 = CredResult.invalidCredentials ∧
    verifyCredentials store e1 p1 = verifyCredentials store e2 p2 := by
  have hv1 : verifyCredentials store e1 p1 = CredResult.invalidCredentials := by
    unfold verifyCredentials
    rw [h1]
  have hv2 : verifyCredentials store e2 p2 = CredResult.invalidCredentials := by
    unfold verifyCredentials
    cases hs : store e2 with
    | none => rfl
    | some stored =>
      simp only []
      rw [if_neg (h2 stored hs)]
  exact ⟨hv1, hv2, by rw [hv1, hv2]⟩

/-- A demo user store holding one user, email `a` with password `[1, 2]`. -/
def demoStore : List Nat → Option (List Nat) :=
  fun e => if e = [97] then some (hashPw [1, 2]) else none

/-- Witness for C6: unknown email `b` vs. known email `a` with a wrong
password. -/
theorem credential_indistinguishable_witness :
    verifyCredentials demoStore [98] [5] = CredResult.invalidCredentials ∧
    verifyCredentials demoStore [97] [9] = CredResult.invalidCredentials ∧
    verifyCredentials demoStore [98] [5] = verifyCredentials demoStore [97] [9] :=
  credential_indistinguishable demoStore [98] [5] [97] [9] (by decide)
    (fun stored hst => by
      simp only [demoStore, if_true] at hst
      injection hst with hst
      subst hst
      decide)

/-- C7: a token issued for subject `sub` at time `now` embeds exactly the
claims `sub = sub`, `iat = now`, `exp = now + TTL` (recovered by the
verifier as the Principal), where the TTL is the fixed
`jwtExpirationMs = 86400000` milliseconds (24 hours). -/
theorem token_payload_claims (secret sub : List Nat) (now : Nat)
    (hsub : ∀ b ∈ sub, b < 256) :
    verifyCore secret (generateToken secret sub now)
        = Except.ok ⟨sub, now, now + 86400000⟩ ∧
    jwtExpirationMs = 86400000 :=
  ⟨verifyCore_generateToken secret sub now hsub, rfl⟩

set_option maxRecDepth 40000 in
/-- Witness for C7 at a concrete secret, subject and time. -/
theorem token_payload_claims_witness :
    verifyCore [1, 2, 3] (generateToken [1, 2, 3] [97] 5)
        = Except.ok ⟨[97], 5, 5 + 86400000⟩ ∧
    jwtExpirationMs = 86400000 :=
  token_payload_claims [1, 2, 3] [97] 5 (by decide)

theorem truthy_some {o : Option String} {t : String} (h : truthy o = some t) :
    o = some t ∧ t ≠ "" := by
  unfold truthy at h
  cases o with
  | none => simp at h
  | some s =>
    replace h : (if s = "" then none else some s) = some t := h
    split_ifs at h with hs
    all_goals simp_all

theorem extractToken_ne_empty {a b : Option String} {t : String}
    (h : extractToken a b = some t) : t ≠ "" := by
  unfold extractToken at h
  cases ha : truthy a with
  | some s =>
    rw [ha] at h
    obtain rfl := Option.some.inj h
    exact (truthy_some ha).2
  | none =>
    rw [ha] at h
    exact (truthy_some h).2

/-- C8 (amended): the frontend takes the token from the `token` field when
it is present and truthy, otherwise from the `access_token` field when that
is present and truthy; when neither yields a token the call does NOT
silently default — it fails loudly with the error
`"No token received from server"`, leaving the user and storage unchanged
(both in `login` and in `register`). -/
theorem frontend_token_parse (st : AuthState) (storage : List (String × String))
    (email : String) (tokenField accessTokenField : Option String) :
    (∀ tok, tokenField = some tok → tok ≠ "" →
      extractToken tokenField accessTokenField = some tok) ∧
    (∀ tok, (tokenField = none ∨ tokenField = some "") →
      accessTokenField = some tok → tok ≠ "" →
      extractToken tokenField accessTokenField = some tok) ∧
    (extractToken tokenField accessTokenField = none →
      login st storage email (FetchOutcome.httpSuccess tokenField accessTokenField)
          = (⟨st.user, false, some "No token received from server"⟩, storage) ∧
      registerUser st storage email
          (FetchOutcome.httpSuccess tokenField accessTokenField)
          = (⟨st.user, false, some "No token received from server"⟩, storage)) := by
  refine ⟨?_, ?_, ?_⟩
  · rintro tok rfl hne
    simp [extractToken, truthy, hne]
  · rintro tok (rfl | rfl) rfl hne <;> simp [extractToken, truthy, hne]
  · intro hnone
    constructor <;> simp [login, registerUser, authCall, hnone]

/-- Witness for C8's amended theorem: a truthy `token` field wins. -/
theorem frontend_token_parse_witness :
    extractToken (some "tok123") none = some "tok123" :=
  (frontend_token_parse ⟨none, false, none⟩ [] "e" (some "tok123") none).1
    "tok123" rfl (by decide)

/-- Counterexample to C8 as stated: on a success response with neither
`token` nor `access_token`, the source does not silently default — the
login call fails loudly: the error state becomes
`"No token received from server"`, and no user is set. -/
theorem frontend_token_parse_counterexample :
    login ⟨none, false, none⟩ [] "a@x.com" (FetchOutcome.httpSuccess none none)
      = (⟨none, false, some "No token received from server"⟩, []) := by
  rfl

/-- C9: a successful login (or registration) stores the issued token under
the fixed key `authToken` and the email under the fixed key `userEmail`
(register writes the same storage), and the startup restore produces
`{email, token}` from exactly those keys — only when both are present
(restoration implies both keys were stored). -/
theorem frontend_persistence (st : AuthState) (storage : List (String × String))
    (email : String) (tokenField accessTokenField : Option String) (tok : String)
    (hex : extractToken tokenField accessTokenField = some tok) :
    getItem (login st storage email
        (FetchOutcome.httpSuccess tokenField accessTokenField)).2 "authToken"
      = some tok ∧
    getItem (login st storage email
        (FetchOutcome.httpSuccess tokenField accessTokenField)).2 "userEmail"
      = some email ∧
    (login st storage email
        (FetchOutcome.httpSuccess tokenField accessTokenField)).1.user
      = some ⟨email, tok⟩ ∧
    (email ≠ "" →
      restoreUser (login st storage email
          (FetchOutcome.httpSuccess tokenField accessTokenField)).2
        = some ⟨email, tok⟩) ∧
    (∀ stg u, restoreUser stg = some u →
      getItem stg "authToken" = some u.token ∧
      getItem stg "userEmail" = some u.email) ∧
    (registerUser st storage email
        (FetchOutcome.httpSuccess tokenField accessTokenField)).2
      = (login st storage email
          (FetchOutcome.httpSuccess tokenField accessTokenField)).2 := by
  have hres : (login st storage email
      (FetchOutcome.httpSuccess tokenField accessTokenField)).2
      = setItem (setItem storage "authToken" tok) "userEmail" email := by
    simp [login, authCall, hex]
  have htok : getItem (login st storage email
      (FetchOutcome.httpSuccess tokenField accessTokenField)).2 "authToken"
      = some tok := by
    rw [hres, getItem_setItem_other _ _ _ _ (by decide), getItem_setItem_self]
  have hmail : getItem (login st storage email
      (FetchOutcome.httpSuccess tokenField accessTokenField)).2 "userEmail"
      = some email := by
    rw [hres, getItem_setItem_self]
  refine ⟨htok, hmail, by simp [login, authCall, hex], ?_, ?_, ?_⟩
  · intro hemail
    unfold restoreUser
    rw [htok, hmail]
    simp [truthy, extractToken_ne_empty hex, hemail]
  · intro stg u hu
    unfold restoreUser at hu
    cases ht : truthy (getItem stg "authToken") with
    | none => rw [ht] at hu; simp at hu
    | some t =>
      cases he : truthy (getItem stg "userEmail") with
      | none => rw [ht, he] at hu; simp at hu
      | some e =>
        rw [ht, he] at hu
        obtain rfl := Option.some.inj hu
        exact ⟨(truthy_some ht).1, (truthy_some he).1⟩
  · simp [login, registerUser, authCall, hex]

/-- Witness for C9: a concrete successful login stores both keys and the
startup restore recovers the same user. -/
theorem frontend_persistence_witness :
    restoreUser (login ⟨none, false, none⟩ [] "a@x.com"
        (FetchOutcome.httpSuccess (some "t1") none)).2
      = some ⟨"a@x.com", "t1"⟩ :=
  ((frontend_persistence ⟨none, false, none⟩ [] "a@x.com" (some "t1") none "t1"
    rfl).2.2.2.1) (by decide)

/-- C10: on every failing login/register call — network error, non-ok HTTP
response, or an ok response with neither token field — the storage and the
user state are unchanged (no partial write), the error state is set to some
failure message, and `isLoading` is `false` afterwards. -/
theorem frontend_failure_clean (st : AuthState) (storage : List (String × String))
    (email : String) (outcome : FetchOutcome)
    (hfail : (∃ m, outcome = FetchOutcome.networkFailure m) ∨
      (∃ status m, outcome = FetchOutcome.httpFailure status m) ∨
      (∃ tf af, outcome = FetchOutcome.httpSuccess tf af ∧
        extractToken tf af = none)) :
    ((login st storage email outcome).2 = storage ∧
      (login st storage email outcome).1.user = st.user ∧
      (login st storage email outcome).1.isLoading = false ∧
      ∃ msg, (login st storage email outcome).1.error = some msg) ∧
    ((registerUser st storage email outcome).2 = storage ∧
      (registerUser st storage email outcome).1.user = st.user ∧
      (registerUser st storage email outcome).1.isLoading = false ∧
      ∃ msg, (registerUser st storage email outcome).1.error = some msg) := by
  rcases hfail with ⟨m, rfl⟩ | ⟨status, m, rfl⟩ | ⟨tf, af, rfl, hex⟩
  · exact ⟨⟨rfl, rfl, rfl, _, rfl⟩, ⟨rfl, rfl, rfl, _, rfl⟩⟩
  · exact ⟨⟨rfl, rfl, rfl, _, rfl⟩, ⟨rfl, rfl, rfl, _, rfl⟩⟩
  · have hl : login st storage email (FetchOutcome.httpSuccess tf af)
        = (⟨st.user, false, some "No token received from server"⟩, storage) := by
      simp [login, authCall, hex]
    have hr : registerUser st storage email (FetchOutcome.httpSuccess tf af)
        = (⟨st.user, false, some "No token received from server"⟩, storage) := by
      simp [registerUser, authCall, hex]
    rw [hl, hr]
    exact ⟨⟨rfl, rfl, rfl, _, rfl⟩, ⟨rfl, rfl, rfl, _, rfl⟩⟩

/-- Witness for C10: a concrete failed login leaves the storage empty,
keeps no user, clears `isLoading`, and sets the error message. -/
theorem frontend_failure_clean_witness :
    (login ⟨none, false, none⟩ [] "e" (FetchOutcome.networkFailure none)).2 = [] ∧
    (login ⟨none, false, none⟩ [] "e"
      (FetchOutcome.networkFailure none)).1.isLoading = false :=
  ⟨(frontend_failure_clean ⟨none, false, none⟩ [] "e"
      (FetchOutcome.networkFailure none) (Or.inl ⟨none, rfl⟩)).1.1,
    (frontend_failure_clean ⟨none, false, none⟩ [] "e"
      (FetchOutcome.networkFailure none) (Or.inl ⟨none, rfl⟩)).1.2.2.1⟩
